import Mathlib

/-!
Verification of the LibDC1394 video-capture engine
(PsychSourceGL/Source/Common/Screen/PsychVideoCaptureSupportLibDC1394.c)
against its natural-language specification.

The C source is shallowly embedded: pure arithmetic on machine integers is
modelled on `Nat`/`Int` (with explicit `% 2^16` where a store into a 16-bit
word truncates), floating-point mode-selection arithmetic is modelled on `ℚ`,
and the stateful session logic is modelled as explicit state-passing
functions on small structures.  Each definition mirrors one function or one
code region of the source file and is named after it.
-/

namespace PsychDC

/-! ### Sync mode bits (source lines 54-58) -/

/-- Source constant `kPsychIsSyncMaster`. -/
def kPsychIsSyncMaster : ℕ := 1

/-- Source constant `kPsychIsSyncSlave`. -/
def kPsychIsSyncSlave : ℕ := 2

/-- Source constant `kPsychIsSoftSynced`. -/
def kPsychIsSoftSynced : ℕ := 4

/-- Source constant `kPsychIsBusSynced`. -/
def kPsychIsBusSynced : ℕ := 8

/-- Source constant `kPsychIsHwSynced`. -/
def kPsychIsHwSynced : ℕ := 16

/-! ### SyncMode parameter validation
(`PsychDCVideoCaptureSetParameter`, "SyncMode" branch, source lines 2443-2487).

The branch either raises a user error (`PsychErrorExitMsg`), silently keeps
the old value (hw-synced slave without trigger feature), or assigns the new
value.  `triggerPresent` abstracts the camera's trigger-feature query. -/

inductive SyncModeOutcome where
  /-- `PsychErrorExitMsg(PsychError_user, ...)` was raised: value rejected. -/
  | rejected : SyncModeOutcome
  /-- The old `syncmode` value is silently kept (hw-sync slave, no trigger). -/
  | keptOld : SyncModeOutcome
  /-- `capdev->syncmode = intval` was executed: value accepted and persisted. -/
  | assigned (v : ℕ) : SyncModeOutcome
deriving DecidableEq

/-- Embedding of the "SyncMode" validation in
`PsychDCVideoCaptureSetParameter` (source lines 2446-2484), for a
non-query call (`value != DBL_MAX`), on the rounded integer `intval`. -/
def setSyncMode (intval : ℕ) (triggerPresent : Bool) : SyncModeOutcome :=
  if intval ≠ 0 then
    if (intval &&& kPsychIsSyncMaster ≠ 0) ∧ (intval &&& kPsychIsSyncSlave ≠ 0) then
      .rejected
    else if (intval &&& kPsychIsSyncMaster = 0) ∧ (intval &&& kPsychIsSyncSlave = 0) then
      .rejected
    else
      let oldintval := intval &&& (kPsychIsSoftSynced ||| kPsychIsBusSynced ||| kPsychIsHwSynced)
      if ((intval &&& kPsychIsSyncMaster ≠ 0) ∧ oldintval = 0) ∨
         ((intval &&& kPsychIsSyncSlave ≠ 0) ∧ oldintval ≠ kPsychIsSoftSynced ∧
          oldintval ≠ kPsychIsBusSynced ∧ oldintval ≠ kPsychIsHwSynced) then
        .rejected
      else if (intval &&& kPsychIsHwSynced ≠ 0) ∧ (intval &&& kPsychIsSyncSlave ≠ 0) ∧
              triggerPresent = false then
        .keptOld
      else
        .assigned intval
  else
    .assigned intval

/-! ### Open-time recording-flags handling
(`PsychDCOpenVideoCaptureDevice`, source lines 326-375).

The audio flag (`recordingflags &= ~2`) is cleared only inside the
`if (targetmoviefilename)` branch; with no movie filename the flags are
assigned unchanged.  `recordingflags` is a C `unsigned int`; for values
below `2^32` the `&= ~2` is bitwise AND with `0xFFFFFFFD`. -/

/-- Value of `capdev->recordingflags` stored by `PsychDCOpenVideoCaptureDevice`
(source line 375), given whether a target movie filename was supplied. -/
def openRecordingflags (targetmoviefilename : Option String) (recordingflags : ℕ) : ℕ :=
  match targetmoviefilename with
  | some _ => recordingflags &&& 0xFFFFFFFD
  | none => recordingflags

/-! ### Open-time bitdepth and DMA-buffer-count coercion
(`PsychDCOpenVideoCaptureDevice`, source lines 461-477). -/

/-- Value of `capdev->bitdepth` stored at open time:
`(bitdepth <= 8) ? 8 : 16` (source line 473). -/
def openBitdepth (bitdepth : ℤ) : ℤ :=
  if bitdepth ≤ 8 then 8 else 16

/-- Value of `capdev->num_dmabuffers` stored at open time:
`(num_dmabuffers > 0) ? num_dmabuffers : 8` (source line 477). -/
def openNumDmabuffers (num_dmabuffers : ℤ) : ℤ :=
  if num_dmabuffers > 0 then num_dmabuffers else 8

/-- Value of `capdev->bitdepth` after start queries the video mode's true
data depth (`dc1394_video_get_data_depth`, source lines 1658-1665):
on success the queried depth replaces the stored container depth. -/
def startBitdepth (querySucceeds : Bool) (queriedDepth oldBitdepth : ℤ) : ℤ :=
  if querySucceeds then queriedDepth else oldBitdepth

/-! ### Bit-depth left-shift for 9-15 bpc payloads
(`PsychDCPushFrameToMovie`, source lines 1112-1128, and the raw-output
branch of `PsychDCGetTextureFromCapture`, source lines 2201-2217; both
sites contain the identical per-sample statement
`*(frameoutwords++) = *(frameinwords++) << (16 - capdev->bitdepth);`
on `psych_uint16` words, and a plain `memcpy` otherwise). -/

/-- One 16-bit output sample of the raw-output / movie-push copy loop as a
function of `capdev->bitdepth` and the 16-bit input sample `v`:
left-shift by `16 - bitdepth` (truncated to 16 bits by the store) when
`8 < bitdepth < 16`, identity (memcpy) otherwise. -/
def shiftSample (bitdepth : ℕ) (v : ℕ) : ℕ :=
  if 8 < bitdepth ∧ bitdepth < 16 then (v <<< (16 - bitdepth)) % 65536 else v

/-! ### Scratch conversion frame lifecycle
(`PsychDCVideoCaptureRate`: allocation at start, source lines 1667-1672;
release at stop, source lines 1824-1829). -/

/-- Color codings of the IIDC layer that this engine distinguishes. -/
inductive ColorCoding where
  | mono8 | raw8 | mono16 | raw16 | rgb8 | rgb16 | yuv411 | yuv422 | yuv444
deriving DecidableEq

/-- Value of `capdev->convframe` after the start path of
`PsychDCVideoCaptureRate` (source lines 1667-1672): a scratch frame is
allocated iff `actuallayers == 3` and the negotiated coding is neither
RGB8 nor RGB16; otherwise the previous pointer is left untouched. -/
def startConvframe (prev : Option Unit) (actuallayers : ℕ) (color_code : ColorCoding) :
    Option Unit :=
  if actuallayers = 3 ∧ color_code ≠ ColorCoding.rgb8 ∧ color_code ≠ ColorCoding.rgb16 then
    some ()
  else
    prev

/-- Value of `capdev->convframe` after the stop path of
`PsychDCVideoCaptureRate` (source lines 1824-1829): freed and cleared. -/
def stopConvframe (_prev : Option Unit) : Option Unit :=
  none

/-! ### Start/stop lifecycle of the recorder thread
(`PsychDCVideoCaptureRate`, start path lines 1678-1717, stop path lines
1791-1812).  The thread is created only inside the
`if (capdev->recording_active)` block, and there only under
`if (capdev->recordingflags & 16)`; `PsychSetThreadPriority(...,2,1)` is
called right after creation.  The stop path joins and clears the thread
(again only reachable when it was created, since a created thread implies
`recording_active` and a valid `moviehandle`). -/

structure SessionState where
  grabber_active : Bool
  recorderThread : Bool
  threadPriorityRaised : Bool
  recording_active : Bool
  recordingflags : ℕ
deriving DecidableEq

/-- Effect of the start path of `PsychDCVideoCaptureRate` (capturerate > 0)
on the session fields modelled here, assuming the start succeeds. -/
def videoCaptureStart (s : SessionState) : SessionState :=
  let spawn := s.recording_active && (s.recordingflags &&& 16 != 0)
  { s with grabber_active := true
           recorderThread := spawn
           threadPriorityRaised := spawn }

/-- Effect of the stop path of `PsychDCVideoCaptureRate` (capturerate = 0)
on the session fields modelled here: a no-op unless the grabber is active;
otherwise the grabber is stopped and the recorder thread (if any) is joined
and cleared (source lines 1796-1803). -/
def videoCaptureStop (s : SessionState) : SessionState :=
  if s.grabber_active then
    { s with grabber_active := false
             recorderThread := false
             threadPriorityRaised := false }
  else
    s

/-! ### Frame flow into the movie encoder
(recorder thread `PsychDCRecorderThreadMain`, source lines 1231-1343, and
the commit path of `PsychDCGetTextureFromCapture`, source lines 1965-2257).

`framecounter` and the list of frames handed to the encoder sink
(`PsychDCPushFrameToMovie`) are modelled; frames are identified by their
capture sequence number. -/

structure RecordState where
  framecounter : ℕ
  encoded : List ℕ
deriving DecidableEq

/-- One iteration of the recorder thread loop that dequeued the frame
`frame` (source lines 1251-1330): `framecounter` is incremented once, and
the frame is pushed to the encoder iff
`recording_active && (moviehandle != -1) && (recordingflags & 16)`
(source lines 1289-1292); `recActive` abstracts the first two conjuncts. -/
def recorderThreadStep (recActive : Bool) (recordingflags : ℕ) (s : RecordState)
    (frame : ℕ) : RecordState :=
  { framecounter := s.framecounter + 1
    encoded :=
      if recActive && (recordingflags &&& 16 != 0) then s.encoded ++ [frame]
      else s.encoded }

/-- The recorder thread processing the frames `frames` in capture order. -/
def recorderThreadRun (recActive : Bool) (recordingflags : ℕ) (s : RecordState)
    (frames : List ℕ) : RecordState :=
  frames.foldl (recorderThreadStep recActive recordingflags) s

/-- One synchronous probe-plus-commit cycle of `PsychDCGetTextureFromCapture`
(the `!(recordingflags & 16)` path) with `ring` the frames queued in the DMA
ring at fetch time, oldest first (empty means the probe found no frame and
no commit happens).  With `dropframes` set, the drop-to-newest loop (source
lines 1975-1993) re-enqueues and discards all but the newest queued frame,
incrementing `framecounter` once per discarded frame; `framecounter` is then
incremented for the fetched frame (line 2002).  The commit pushes only the
committed (newest) frame to the encoder, iff
`recording_active && (moviehandle != -1) && !(recordingflags & 16)`
(source lines 2220-2224); `recActive` abstracts the first two conjuncts.
Without `dropframes` only the oldest frame is consumed; the remaining queued
frames stay in the ring for later cycles. -/
def syncFetchCommit (recActive : Bool) (recordingflags : ℕ) (dropframes : Bool)
    (s : RecordState) (ring : List ℕ) : RecordState :=
  match ring with
  | [] => s
  | f :: rest =>
    let committed := if dropframes then rest.getLastD f else f
    let skipped := if dropframes then rest.length else 0
    { framecounter := s.framecounter + skipped + 1
      encoded :=
        if recActive && (recordingflags &&& 16 == 0) then s.encoded ++ [committed]
        else s.encoded }

/-! ### Return value of `PsychDCGetTextureFromCapture`
(source lines 1915-1928, 2069-2071 and 2244-2257). -/

/-- Return value of a probe call (`checkForImage` nonzero and not 4) of
`PsychDCGetTextureFromCapture`, as a function of the grabber state, the
`recordingflags & 16` async flag, `dropframes`, the blocking-wait flag
`waitforframe = (checkForImage > 1)` and whether a new frame is (or, for a
blocking path, eventually becomes) available.  Mirrors source lines
1925-2070: `-2` when the grabber is stopped; in the synchronous path a
blocking dequeue always yields a frame while a poll yields one iff available;
in the asynchronous `dropframes` path the condition-wait loop runs until a
frame is signalled; in the asynchronous non-`dropframes` path the fetch is
unimplemented (`frame_ready = FALSE`, source lines 2062-2066); returns `0`
when a frame is ready, `-1` otherwise (line 2070). -/
def checkImageReturn (grabber_active asyncFlag dropframes waitforframe frameArrives : Bool) :
    ℤ :=
  if grabber_active = false then -2
  else
    let frame_ready :=
      if !asyncFlag then
        if waitforframe then true else frameArrives
      else
        if dropframes then frameArrives else false
    if frame_ready then 0 else -1

/-- Return value of `PsychDCGetTextureFromCapture` (source lines 1915-2257):
`checkForImage = 4` is a no-op returning 0 (line 1918); any other nonzero
`checkForImage` is a probe (`checkImageReturn`, with
`waitforframe = (checkForImage > 1)`, line 1915); `checkForImage = 0` is
the commit call, which returns `nrdropped = capdev->pulled_dropped`
(source lines 2244-2257), the `frames_behind` count recorded at fetch time
for this cycle. -/
def getTextureFromCapture (checkForImage : ℤ)
    (grabber_active asyncFlag dropframes frameArrives : Bool)
    (pulled_dropped : ℕ) : ℤ :=
  if checkForImage = 4 then 0
  else if checkForImage ≠ 0 then
    checkImageReturn grabber_active asyncFlag dropframes (decide (1 < checkForImage))
      frameArrives
  else
    pulled_dropped

/-! ### Non-Format-7 framerate selection
(`PsychVideoFindNonFormat7Mode`, recheck loop at source lines 700-727).
Framerate enums are modelled by their float values as rationals. -/

/-- Exact value of the C `double` constant `DBL_MAX`. -/
def DBL_MAX : ℚ := 2 ^ 1024 - 2 ^ 971

/-- The framerate-table scan of `PsychVideoFindNonFormat7Mode` (source lines
704-709): walk the supported framerates in table order, stopping at the
first rate `>= capturerate`; the loop variable `dc1394_framerate` retains
the last assigned rate (or `current`, its value before the loop, when the
table is empty). -/
def pickFramerate (rates : List ℚ) (capturerate : ℚ) (current : ℚ) : ℚ :=
  match rates with
  | [] => current
  | r :: rest => if r ≥ capturerate then r else pickFramerate rest capturerate r

/-- The framerate selected by `PsychVideoFindNonFormat7Mode` for a mode with
framerate table `rates`; the loop variable is initialized to
`DC1394_FRAMERATE_15` (source line 510), i.e. 15 fps. -/
def findNonFormat7Framerate (rates : List ℚ) (capturerate : ℚ) : ℚ :=
  pickFramerate rates capturerate 15

/-- Whether the "Camera does not support requested capture framerate"
warning is printed by `PsychVideoFindNonFormat7Mode` (source lines 712-724):
only when the achieved rate differs from the requested one by at least 0.5,
the requested rate is not `DBL_MAX`, and the achieved rate is below the
requested one. -/
def nonFormat7RateWarning (rates : List ℚ) (capturerate : ℚ) : Bool :=
  let framerate := findNonFormat7Framerate rates capturerate
  if |framerate - capturerate| < 1/2 ∨ capturerate = DBL_MAX then false
  else decide (framerate < capturerate)

/-! ### Format-7 mode selection
(`PsychVideoFindFormat7Mode`, source lines 741-1067).  The admissible
Format-7 modes (those passing the color-coding and ROI admission tests of
lines 823-909) are abstracted as a list of records carrying the data the
packet-size arithmetic reads: the negotiated image size `w x h`, the
`depth` in bits per pixel (`dc1394_format7_get_data_depth`), and the packet
bounds `pbmin`/`pbmax` (`dc1394_format7_get_packet_parameters`). -/

structure F7Mode where
  w : ℕ
  h : ℕ
  depth : ℕ
  pbmin : ℕ
  pbmax : ℕ
deriving DecidableEq

/-- Effective `pbmin` after the special-case handling
`if (pbmin == 0) pbmin = pbmax;` (source line 918). -/
def F7Mode.pbminEff (m : F7Mode) : ℕ :=
  if m.pbmin = 0 then m.pbmax else m.pbmin

/-- An admissible Format-7 mode in the sense of the C1 claim: the effective
packet bounds satisfy `0 < pbmin <= pbmax` (without this the C loop at
source line 943 would not terminate, resp. line 938 would divide by 0). -/
def F7Mode.Admissible (m : F7Mode) : Prop :=
  0 < m.pbminEff ∧ m.pbminEff ≤ m.pbmax

instance (m : F7Mode) : Decidable m.Admissible := by
  unfold F7Mode.Admissible; infer_instance

/-- The `num_packets` computation of `PsychVideoFindFormat7Mode` (source
lines 920-931): `(int)(1.0/(bus_period * capturerate) + 0.5)`, clamped
to `[1, 4095]`, then multiplied by 8.  The C cast truncates toward zero,
which on the nonnegative operand is `Int.toNat ∘ Int.floor`. -/
def f7NumPackets (bus_period capturerate : ℚ) : ℕ :=
  (max 1 (min ((⌊1 / (bus_period * capturerate) + 1/2⌋).toNat) 4095)) * 8

/-- Modelled from the spec: `num_packets = round(1 / (bus_period ×
target_fps)) × 8`, clamped to `[8, 32760]` (spec §4.2, Format-7 ROI/rate).
This is the claim's phrasing, to be compared with `f7NumPackets`, the
translation of the source. -/
def f7NumPacketsSpec (bus_period capturerate : ℚ) : ℕ :=
  max 8 (min ((⌊1 / (bus_period * capturerate) + 1/2⌋).toNat * 8) 32760)

/-- The packet-size shrink loop
`while (packet_size > (int) pbmax) packet_size = packet_size - pbmin;`
(source line 943), written with explicit fuel so that it is structurally
recursive; `shrinkPacketSize` below supplies fuel that is provably
sufficient whenever `0 < pbmin` (each iteration lowers `ps` by at least 1). -/
def shrinkLoop (pbmin pbmax : ℕ) : ℕ → ℕ → ℕ
  | 0, ps => ps
  | fuel + 1, ps => if pbmax < ps then shrinkLoop pbmin pbmax fuel (ps - pbmin) else ps

/-- The shrink loop of source line 943 entered with packet size `ps`. -/
def shrinkPacketSize (pbmin pbmax ps : ℕ) : ℕ :=
  shrinkLoop pbmin pbmax ps ps

/-- The `packet_size` computation of `PsychVideoFindFormat7Mode` (source
lines 916-943) for one admissible mode: ceiling-divide the frame payload by
`num_packets`, raise to `pbmin`, round down to a multiple of `pbmin`, then
shrink into range by repeatedly subtracting `pbmin`. -/
def f7PacketSize (bus_period capturerate : ℚ) (m : F7Mode) : ℕ :=
  let num_packets := f7NumPackets bus_period capturerate
  let packet_size := (m.w * m.h * m.depth + num_packets - 1) / num_packets
  let packet_size := if packet_size < m.pbminEff then m.pbminEff else packet_size
  let packet_size := packet_size - packet_size % m.pbminEff
  shrinkPacketSize m.pbminEff m.pbmax packet_size

/-- The recomputed packet count
`num_packets = (w*h*depth + (packet_size*8) - 1) / (packet_size*8)`
(source line 947). -/
def f7EffNumPackets (m : F7Mode) (packet_size : ℕ) : ℕ :=
  (m.w * m.h * m.depth + packet_size * 8 - 1) / (packet_size * 8)

/-- The recomputed effective framerate
`framerate = 1.0 / (bus_period * num_packets)` (source line 948). -/
def f7Framerate (bus_period capturerate : ℚ) (m : F7Mode) : ℚ :=
  1 / (bus_period * (f7EffNumPackets m (f7PacketSize bus_period capturerate m) : ℚ))

/-- Selection state of the mode-probing loop of `PsychVideoFindFormat7Mode`:
the running minimal `|capturerate - framerate|` (`mindiff`, initialized to
1000000, source line 743) and the best mode seen so far with its packet
size and framerate (`minimgmode`/`minpacket_size`/`mindifframerate`; `none`
models the `DC1394_VIDEO_MODE_MIN` sentinel). -/
structure F7Sel where
  mindiff : ℚ
  best : Option (F7Mode × ℕ × ℚ)
deriving DecidableEq

/-- One iteration of the Format-7 probing loop (source lines 950-956): a
mode replaces the incumbent iff its framerate distance to the requested
rate is strictly below the running minimum. -/
def f7Step (bus_period capturerate : ℚ) (acc : F7Sel) (m : F7Mode) : F7Sel :=
  if |capturerate - f7Framerate bus_period capturerate m| < acc.mindiff then
    ⟨|capturerate - f7Framerate bus_period capturerate m|,
     some (m, f7PacketSize bus_period capturerate m, f7Framerate bus_period capturerate m)⟩
  else
    acc

/-- The whole Format-7 probing loop over the admissible modes (source lines
809-969 restricted to the modes that pass admission, plus the final
assignment block at lines 986-991).  `best = none` models the
"no Format-7 mode found, fall back to non-Format-7" exit (line 972-982). -/
def findFormat7Mode (bus_period capturerate : ℚ) (modes : List F7Mode) : F7Sel :=
  modes.foldl (f7Step bus_period capturerate) ⟨1000000, none⟩

/-! ## Theorems -/

/-- C10: at open time, any requested bitdepth is coerced to exactly 8 when
the request is at most 8 and to exactly 16 otherwise (a 12 bpc request is
recorded as a 16-bit container), and a `num_dmabuffers` request that is
zero or negative is replaced by the default of 8 buffers while a positive
request is kept. -/
theorem open_bitdepth_dma_coercion (bitdepth num_dmabuffers : ℤ) :
    (bitdepth ≤ 8 → openBitdepth bitdepth = 8) ∧
    (8 < bitdepth → openBitdepth bitdepth = 16) ∧
    (num_dmabuffers ≤ 0 → openNumDmabuffers num_dmabuffers = 8) ∧
    (0 < num_dmabuffers → openNumDmabuffers num_dmabuffers = num_dmabuffers) ∧
    openBitdepth 12 = 16 := by
  unfold openBitdepth openNumDmabuffers
  refine ⟨fun h => if_pos h, fun h => if_neg (by omega), fun h => if_neg (by omega),
    fun h => if_pos h, if_neg (by omega)⟩

/-- Witness for `open_bitdepth_dma_coercion` at the concrete request
`bitdepth = 12`, `num_dmabuffers = 0`. -/
theorem open_bitdepth_dma_coercion_witness :
    (8 < (12 : ℤ) ∧ (0 : ℤ) ≤ 0) ∧ openBitdepth 12 = 16 ∧ openNumDmabuffers 0 = 8 :=
  ⟨⟨by norm_num, le_refl 0⟩, (open_bitdepth_dma_coercion 12 0).2.1 (by norm_num),
    (open_bitdepth_dma_coercion 12 0).2.2.1 (le_refl 0)⟩

/-- C9 counterexample: opening with no target movie filename and
`recordingflags = 2` stores the flags unchanged, with the audio bit (value
2) still set — the audio-bit clearing happens only inside the
`if (targetmoviefilename)` branch, so it is not applied "regardless of
whether a target movie filename was supplied". -/
theorem open_audio_flag_counterexample :
    openRecordingflags none 2 = 2 ∧ (2 : ℕ) &&& 2 ≠ 0 := by decide

/-- C9 amended: the audio bit (value 2) of the supplied recordingflags is
force-cleared before the flags are stored if and only if a target movie
filename was supplied; with no filename the flags are stored unchanged. -/
theorem open_audio_flag_cleared (name : String) (flags : ℕ) :
    openRecordingflags (some name) flags &&& 2 = 0 ∧
    openRecordingflags none flags = flags := by
  refine ⟨?_, rfl⟩
  show flags &&& 0xFFFFFFFD &&& 2 = 0
  rw [Nat.land_assoc, show (0xFFFFFFFD &&& 2 : ℕ) = 0 by decide]
  simp [Nat.eq_of_testBit_eq, Nat.testBit_land]

/-- C7: on a start whose preceding state has no scratch frame (as
established by open and by every stop), the scratch conversion frame is
allocated if and only if `actuallayers = 3` and the negotiated color coding
is neither RGB8 nor RGB16; every stop frees the scratch frame and clears
the pointer. -/
theorem convframe_lifecycle (actuallayers : ℕ) (cc : ColorCoding) (prev : Option Unit) :
    ((startConvframe none actuallayers cc).isSome ↔
      (actuallayers = 3 ∧ cc ≠ ColorCoding.rgb8 ∧ cc ≠ ColorCoding.rgb16)) ∧
    stopConvframe prev = none := by
  refine ⟨?_, rfl⟩
  unfold startConvframe
  split <;> simp_all

/-- C6: for `actual_bitdepth` between 9 and 15 the raw-output / movie-push
copy loop left-shifts every 16-bit sample by `16 - actual_bitdepth`, so the
maximal payload value `(1 <<< bd) - 1` maps to
`0xFFFF &&& ~((1 <<< (16-bd)) - 1)` (complement taken within 16 bits),
black (0) stays all-zero, and for `actual_bitdepth` 8 or 16 samples are
copied unchanged. -/
theorem bitdepth_shift_roundtrip (bd : ℕ) (h9 : 9 ≤ bd) (h15 : bd ≤ 15) (v : ℕ) :
    shiftSample bd ((1 <<< bd) - 1) = 0xFFFF &&& (0xFFFF ^^^ ((1 <<< (16 - bd)) - 1)) ∧
    shiftSample bd 0 = 0 ∧
    shiftSample 8 v = v ∧
    shiftSample 16 v = v := by
  have h8 : shiftSample 8 v = v := by unfold shiftSample; simp
  have h16 : shiftSample 16 v = v := by unfold shiftSample; simp
  refine ⟨?_, ?_, h8, h16⟩ <;> interval_cases bd <;> decide

/-- Witness for `bitdepth_shift_roundtrip` at the concrete depth 12 (a
12 bpc payload; white `0x0FFF` maps to `0xFFF0`, matching scenario E6). -/
theorem bitdepth_shift_roundtrip_witness :
    ((9 : ℕ) ≤ 12 ∧ (12 : ℕ) ≤ 15) ∧ shiftSample 12 ((1 <<< 12) - 1) = 0xFFF0 :=
  ⟨⟨by norm_num, by norm_num⟩, ((bitdepth_shift_roundtrip 12 (by norm_num) (by norm_num) 0).1).trans (by decide)⟩

/-- C2 counterexample: the value `13 = Master|Soft|Bus` combines Master
with a sync-strategy set that is not exactly one of Soft, Bus, Hw, so the
claim says it must be rejected; the code accepts and persists it (for a
master, the validation only requires the strategy set to be nonempty). -/
theorem syncmode_master_two_strategies_accepted :
    setSyncMode 13 true = SyncModeOutcome.assigned 13 ∧
    13 = kPsychIsSyncMaster ||| kPsychIsSoftSynced ||| kPsychIsBusSynced := by decide

/-- C2 amended: over the bitsets on {master, slave, soft, bus, hw} (values
below 32), SyncMode accepts and persists exactly: 0, and Master with any
nonempty subset of {Soft, Bus, Hw}, and Slave with exactly one of
{Soft, Bus, Hw}; every other such bitset is rejected with an error (in
particular both-Master-and-Slave, and nonzero with neither).  A Slave|Hw
request on a camera without the trigger feature silently keeps the old
value. -/
theorem setSyncMode_legality :
    (∀ v : Fin 32, setSyncMode v.val true = SyncModeOutcome.assigned v.val ↔
      (v.val = 0 ∨
       (v.val &&& kPsychIsSyncMaster ≠ 0 ∧ v.val &&& kPsychIsSyncSlave = 0 ∧
        v.val &&& (kPsychIsSoftSynced ||| kPsychIsBusSynced ||| kPsychIsHwSynced) ≠ 0) ∨
       (v.val &&& kPsychIsSyncSlave ≠ 0 ∧ v.val &&& kPsychIsSyncMaster = 0 ∧
        (v.val &&& 28 = kPsychIsSoftSynced ∨ v.val &&& 28 = kPsychIsBusSynced ∨
         v.val &&& 28 = kPsychIsHwSynced)))) ∧
    (∀ v : Fin 32, setSyncMode v.val true = SyncModeOutcome.assigned v.val ∨
      setSyncMode v.val true = SyncModeOutcome.rejected) ∧
    setSyncMode 18 false = SyncModeOutcome.keptOld ∧
    setSyncMode 18 true = SyncModeOutcome.assigned 18 := by decide

/-- C8 counterexample: a session with the ASYNC recording flag (bit value
16) set but recording not active (no target movie file): start leaves the
grabber active but spawns no recorder thread, so neither "start spawns the
recorder thread" nor "the recorder thread exists iff `grabber_active`"
holds for it. -/
theorem recorder_thread_counterexample :
    (SessionState.mk false false false false 16).recordingflags &&& 16 ≠ 0 ∧
    (videoCaptureStart (SessionState.mk false false false false 16)).grabber_active = true ∧
    (videoCaptureStart (SessionState.mk false false false false 16)).recorderThread = false := by
  decide

/-- C8 amended: for a session with the ASYNC recording flag set AND
recording active, start spawns the background recorder thread at elevated
priority, and the recorder thread exists iff `grabber_active`: both hold
after start, and both are false after the following stop (which joins and
clears the thread). -/
theorem recorder_thread_lifecycle (s : SessionState)
    (hrec : s.recording_active = true) (hflags : s.recordingflags &&& 16 ≠ 0) :
    ((videoCaptureStart s).recorderThread = true ∧
     (videoCaptureStart s).threadPriorityRaised = true ∧
     (videoCaptureStart s).grabber_active = true) ∧
    ((videoCaptureStart s).recorderThread = (videoCaptureStart s).grabber_active) ∧
    ((videoCaptureStop (videoCaptureStart s)).recorderThread = false ∧
     (videoCaptureStop (videoCaptureStart s)).grabber_active = false) := by
  have hb : (s.recordingflags &&& 16 != 0) = true := by
    simpa using hflags
  unfold videoCaptureStart videoCaptureStop
  simp [hrec, hb]

/-- Witness for `recorder_thread_lifecycle` at a concrete ASYNC recording
session. -/
theorem recorder_thread_lifecycle_witness :
    ((SessionState.mk false false false true 16).recording_active = true ∧
     (SessionState.mk false false false true 16).recordingflags &&& 16 ≠ 0) ∧
    (videoCaptureStart (SessionState.mk false false false true 16)).recorderThread = true ∧
    (videoCaptureStop (videoCaptureStart (SessionState.mk false false false true 16))).recorderThread
      = false :=
  ⟨⟨rfl, by decide⟩,
    (recorder_thread_lifecycle _ rfl (by decide)).1.1,
    (recorder_thread_lifecycle _ rfl (by decide)).2.2.1⟩

/-- C5: on a started session, `checkForImage = 4` returns 0 without doing
anything; `checkForImage = 1` (poll) and `= 2` (blocking wait) return -2
when the grabber is stopped; when it is running they return 0 when a new
frame is ready and -1 when none is (sync poll: ready iff a frame is queued;
sync blocking wait: the dequeue blocks until a frame is ready; async
low-latency path: ready iff the recorder thread has signalled a frame;
async non-dropframes path: fetching is unimplemented, never ready); a
commit call (`checkForImage = 0`) returns the dropped-count recorded for
that cycle (the `frames_behind` count of the DMA ring at fetch time). -/
theorem getTexture_return_codes (ga af dr fa : Bool) (pd : ℕ) :
    getTextureFromCapture 4 ga af dr fa pd = 0 ∧
    getTextureFromCapture 1 false af dr fa pd = -2 ∧
    getTextureFromCapture 2 false af dr fa pd = -2 ∧
    getTextureFromCapture 1 true false dr fa pd = (if fa then 0 else -1) ∧
    getTextureFromCapture 2 true false dr fa pd = 0 ∧
    getTextureFromCapture 1 true true true fa pd = (if fa then 0 else -1) ∧
    getTextureFromCapture 2 true true true fa pd = (if fa then 0 else -1) ∧
    getTextureFromCapture 1 true true false fa pd = -1 ∧
    getTextureFromCapture 2 true true false fa pd = -1 ∧
    getTextureFromCapture 0 ga af dr fa pd = pd := by
  cases fa <;>
    simp [getTextureFromCapture, checkImageReturn]

/-- C4 counterexample: a synchronous-recording fetch/commit cycle
(recording active, async flag clear) with `dropframes` set and two frames
queued in the DMA ring: `framecounter` advances by 2, but the encoder
receives only the newest frame; the frame skipped by the consumer
drop-to-newest loop (frame 1) is never delivered to the encoder, so the
encoder does not receive every captured frame regardless of the
`dropframes` setting. -/
theorem encoder_sync_drop_counterexample :
    (syncFetchCommit true 0 true ⟨0, []⟩ [1, 2]).framecounter = 2 ∧
    (syncFetchCommit true 0 true ⟨0, []⟩ [1, 2]).encoded = [2] ∧
    1 ∉ (syncFetchCommit true 0 true ⟨0, []⟩ [1, 2]).encoded := by decide

/-- Helper: closed form of the recorder thread run. -/
theorem recorderThreadRun_closed (recActive : Bool) (flags : ℕ) (frames : List ℕ) :
    ∀ s : RecordState,
      recorderThreadRun recActive flags s frames =
        ⟨s.framecounter + frames.length,
         if recActive && (flags &&& 16 != 0) then s.encoded ++ frames else s.encoded⟩ := by
  induction frames with
  | nil => intro s; simp [recorderThreadRun]
  | cons f rest ih =>
    intro s
    show recorderThreadRun recActive flags (recorderThreadStep recActive flags s f) rest = _
    rw [ih]
    unfold recorderThreadStep
    split <;> simp_all <;> omega

/-- C4 amended: with async recording on (recording active and the async
flag, bit value 16, set in the recordingflags) every frame the recorder
thread dequeues is pushed to the encoder sink in capture order with no
drops, and the encoder has received exactly `framecounter` frames by stop;
in synchronous recording, by `encoder_sync_drop_counterexample`, frames
skipped by the consumer drop-to-newest loop are not delivered to the
encoder (only committed frames are). -/
theorem encoder_async_no_drop (recordingflags : ℕ)
    (hflags : recordingflags &&& 16 ≠ 0) (frames : List ℕ) :
    (recorderThreadRun true recordingflags ⟨0, []⟩ frames).encoded = frames ∧
    (recorderThreadRun true recordingflags ⟨0, []⟩ frames).framecounter = frames.length := by
  have hb : (true && (recordingflags &&& 16 != 0)) = true := by simpa using hflags
  rw [recorderThreadRun_closed, hb]
  simp

/-- Witness for `encoder_async_no_drop` on a concrete three-frame capture
run with `recordingflags = 16`. -/
theorem encoder_async_no_drop_witness :
    ((16 : ℕ) &&& 16 ≠ 0) ∧
    (recorderThreadRun true 16 ⟨0, []⟩ [3, 4, 5]).encoded = [3, 4, 5] ∧
    (recorderThreadRun true 16 ⟨0, []⟩ [3, 4, 5]).framecounter = 3 :=
  ⟨by decide, (encoder_async_no_drop 16 (by decide) [3, 4, 5]).1,
    (encoder_async_no_drop 16 (by decide) [3, 4, 5]).2⟩

/-- Helper: in a `≤`-sorted list the last element is maximal. -/
theorem sorted_le_getLast :
    ∀ (l : List ℚ) (hne : l ≠ []), l.Sorted (· ≤ ·) → ∀ r ∈ l, r ≤ l.getLast hne := by
  intro l
  induction l with
  | nil => simp
  | cons a rest ih =>
    intro hne hsort r hr
    cases rest with
    | nil =>
      simp only [List.mem_singleton] at hr
      simp [hr, List.getLast]
    | cons b rest2 =>
      rw [List.getLast_cons (by simp)]
      rcases List.mem_cons.1 hr with rfl | hr2
      · exact (List.sorted_cons.1 hsort).1 _ (List.getLast_mem _)
      · exact ih (by simp) (List.sorted_cons.1 hsort).2 r hr2

/-- Helper: the framerate-table scan on a sorted table containing a rate
at or above the target returns the smallest such rate. -/
theorem pickFramerate_spec_ge (c : ℚ) :
    ∀ rates : List ℚ, rates.Sorted (· ≤ ·) → (∃ r ∈ rates, c ≤ r) → ∀ cur : ℚ,
      pickFramerate rates c cur ∈ rates ∧ c ≤ pickFramerate rates c cur ∧
      ∀ r ∈ rates, c ≤ r → pickFramerate rates c cur ≤ r := by
  intro rates
  induction rates with
  | nil => intro _ h; simp at h
  | cons a rest ih =>
    intro hsort hex cur
    by_cases ha : c ≤ a
    · have hstep : pickFramerate (a :: rest) c cur = a := by
        simp [pickFramerate, ge_iff_le, ha]
      rw [hstep]
      refine ⟨by simp, ha, ?_⟩
      intro r hrm _
      rcases List.mem_cons.1 hrm with rfl | hrrest
      · exact le_refl r
      · exact (List.sorted_cons.1 hsort).1 r hrrest
    · have hstep : pickFramerate (a :: rest) c cur = pickFramerate rest c a := by
        simp [pickFramerate, ge_iff_le, ha]
      obtain ⟨r₀, hr₀m, hr₀⟩ := hex
      have hr₀rest : r₀ ∈ rest := by
        rcases List.mem_cons.1 hr₀m with rfl | h
        · exact absurd hr₀ ha
        · exact h
      have hrec := ih (List.sorted_cons.1 hsort).2 ⟨r₀, hr₀rest, hr₀⟩ a
      rw [hstep]
      refine ⟨List.mem_cons_of_mem _ hrec.1, hrec.2.1, ?_⟩
      intro r hrm hcr
      rcases List.mem_cons.1 hrm with rfl | hrrest
      · exact absurd hcr ha
      · exact hrec.2.2 r hrrest hcr

/-- Helper: when no rate reaches the target, the framerate-table scan runs
to the end of the table and returns its last entry. -/
theorem pickFramerate_spec_lt (c : ℚ) :
    ∀ (rates : List ℚ) (cur : ℚ) (hne : rates ≠ []), (∀ r ∈ rates, r < c) →
      pickFramerate rates c cur = rates.getLast hne := by
  intro rates
  induction rates with
  | nil => intro cur hne; simp at hne
  | cons a rest ih =>
    intro cur hne hall
    have ha : ¬ c ≤ a := not_le.2 (hall a (by simp))
    have hstep : pickFramerate (a :: rest) c cur = pickFramerate rest c a := by
      simp [pickFramerate, ge_iff_le, ha]
    cases rest with
    | nil =>
      rw [hstep]
      simp [pickFramerate, List.getLast]
    | cons b r2 =>
      rw [hstep, ih a (by simp) (fun r hr => hall r (by simp [hr]))]
      exact (List.getLast_cons (by simp)).symm

/-- C3 counterexample: for the sorted framerate table {15, 30} and target
rate 30.2 fps no supported rate meets the target, the mode's maximum (30)
is selected, but no warning is reported: the code warns only when the
achieved rate misses the requested one by at least 0.5 fps. -/
theorem nonFormat7_warning_counterexample :
    (∀ r ∈ [(15 : ℚ), 30], r < 151/5) ∧
    findNonFormat7Framerate [15, 30] (151/5) = 30 ∧
    nonFormat7RateWarning [15, 30] (151/5) = false := by
  refine ⟨by intro r hr; fin_cases hr <;> norm_num, ?_, ?_⟩
  · unfold findNonFormat7Framerate
    norm_num [pickFramerate]
  · unfold nonFormat7RateWarning findNonFormat7Framerate
    norm_num [pickFramerate, abs]

/-- C3 amended: for a non-Format-7 mode whose framerate table is sorted
ascending (and nonempty), the selected framerate is the smallest supported
rate at or above the target; if no supported rate meets the target the
mode's maximum rate is selected, and a warning is reported when
additionally the selected rate misses the target by at least 0.5 fps and
the target is not `DBL_MAX`. -/
theorem nonFormat7_framerate_rule (rates : List ℚ) (capturerate : ℚ)
    (hsort : rates.Sorted (· ≤ ·)) (hne : rates ≠ []) :
    ((∃ r ∈ rates, capturerate ≤ r) →
      findNonFormat7Framerate rates capturerate ∈ rates ∧
      capturerate ≤ findNonFormat7Framerate rates capturerate ∧
      ∀ r ∈ rates, capturerate ≤ r → findNonFormat7Framerate rates capturerate ≤ r) ∧
    ((∀ r ∈ rates, r < capturerate) →
      findNonFormat7Framerate rates capturerate = rates.getLast hne ∧
      (∀ r ∈ rates, r ≤ findNonFormat7Framerate rates capturerate) ∧
      (capturerate ≠ DBL_MAX →
        1/2 ≤ |findNonFormat7Framerate rates capturerate - capturerate| →
        nonFormat7RateWarning rates capturerate = true)) := by
  constructor
  · intro hex
    exact pickFramerate_spec_ge capturerate rates hsort hex 15
  · intro hall
    have hlast := pickFramerate_spec_lt capturerate rates 15 hne hall
    refine ⟨hlast, ?_, ?_⟩
    · intro r hr
      rw [show findNonFormat7Framerate rates capturerate = rates.getLast hne from hlast]
      exact sorted_le_getLast rates hne hsort r hr
    · intro hdbl hdiff
      have hmem : findNonFormat7Framerate rates capturerate ∈ rates := by
        rw [show findNonFormat7Framerate rates capturerate = rates.getLast hne from hlast]
        exact List.getLast_mem hne
      have hlt : findNonFormat7Framerate rates capturerate < capturerate := hall _ hmem
      unfold nonFormat7RateWarning
      rw [if_neg]
      · exact decide_eq_true hlt
      · push_neg
        exact ⟨hdiff, hdbl⟩

/-- Witness for `nonFormat7_framerate_rule` on the sorted table
{15, 30, 60} with target 25 fps: 30 is the smallest rate at or above the
target. -/
theorem nonFormat7_framerate_rule_witness :
    ([(15 : ℚ), 30, 60].Sorted (· ≤ ·) ∧ [(15 : ℚ), 30, 60] ≠ [] ∧
      (30 : ℚ) ∈ [(15 : ℚ), 30, 60] ∧ (25 : ℚ) ≤ 30) ∧
    findNonFormat7Framerate [15, 30, 60] 25 ∈ [(15 : ℚ), 30, 60] ∧
    (25 : ℚ) ≤ findNonFormat7Framerate [15, 30, 60] 25 := by
  have hs : ([(15 : ℚ), 30, 60]).Sorted (· ≤ ·) := by
    simp [List.sorted_cons]
    norm_num
  have h := (nonFormat7_framerate_rule [15, 30, 60] 25 hs (by simp)).1
    ⟨30, by simp, by norm_num⟩
  exact ⟨⟨hs, by simp, by simp, by norm_num⟩, h.1, h.2.1⟩

/-- Helper: the clamp-then-multiply of the source equals the spec's
multiply-then-clamp form, and lands in `[8, 32760]`. -/
theorem f7NumPackets_clamped (bp c : ℚ) :
    f7NumPackets bp c = f7NumPacketsSpec bp c ∧
    8 ≤ f7NumPackets bp c ∧ f7NumPackets bp c ≤ 32760 := by
  unfold f7NumPackets f7NumPacketsSpec
  generalize (⌊1 / (bp * c) + 1/2⌋).toNat = n
  refine ⟨?_, ?_, ?_⟩ <;> omega

/-- Helper: invariants of the packet-size shrink loop: entered with a
positive multiple of `pbmin` that is at least `pbmin`, with
`pbmin ≤ pbmax` and enough fuel, it returns a multiple of `pbmin` inside
`[pbmin, pbmax]`. -/
theorem shrinkLoop_spec (e pbmax : ℕ) (h0 : 0 < e) (hle : e ≤ pbmax) :
    ∀ (fuel ps : ℕ), e ∣ ps → e ≤ ps → ps ≤ pbmax + fuel →
      e ∣ shrinkLoop e pbmax fuel ps ∧ e ≤ shrinkLoop e pbmax fuel ps ∧
      shrinkLoop e pbmax fuel ps ≤ pbmax := by
  intro fuel
  induction fuel with
  | zero =>
    intro ps hdvd hge hub
    exact ⟨hdvd, hge, by simpa [shrinkLoop] using hub⟩
  | succ n ih =>
    intro ps hdvd hge hub
    simp only [shrinkLoop]
    split
    · rename_i hguard
      have h2e : 2 * e ≤ ps := by
        obtain ⟨k, hk⟩ := hdvd
        rcases Nat.lt_or_ge k 2 with hk2 | hk2
        · interval_cases k <;> omega
        · calc 2 * e = e * 2 := by ring
          _ ≤ e * k := Nat.mul_le_mul_left e hk2
          _ = ps := hk.symm
      exact ih (ps - e) (Nat.dvd_sub' hdvd dvd_rfl) (by omega) (by omega)
    · rename_i hguard
      exact ⟨hdvd, hge, by omega⟩

/-- Helper: raising a raw packet size to `pbmin`, rounding down to a
multiple of `pbmin`, and running the shrink loop yields a multiple of
`pbmin` inside `[pbmin, pbmax]`. -/
theorem packetRound_spec (e pbmax ps0 : ℕ) (h0 : 0 < e) (hle : e ≤ pbmax) :
    e ∣ shrinkPacketSize e pbmax
        ((if ps0 < e then e else ps0) - (if ps0 < e then e else ps0) % e) ∧
    e ≤ shrinkPacketSize e pbmax
        ((if ps0 < e then e else ps0) - (if ps0 < e then e else ps0) % e) ∧
    shrinkPacketSize e pbmax
        ((if ps0 < e then e else ps0) - (if ps0 < e then e else ps0) % e) ≤ pbmax := by
  set ps1 := if ps0 < e then e else ps0 with hps1
  have hps1e : e ≤ ps1 := by rw [hps1]; split <;> omega
  have hmod := Nat.div_add_mod ps1 e
  have h2 : ps1 - ps1 % e = e * (ps1 / e) := by
    rw [Nat.sub_eq_iff_eq_add (Nat.mod_le ps1 e)]
    exact hmod.symm
  have hdvd2 : e ∣ ps1 - ps1 % e := ⟨ps1 / e, h2⟩
  have hge2 : e ≤ ps1 - ps1 % e := by
    have h1 : 1 ≤ ps1 / e := (Nat.le_div_iff_mul_le h0).2 (by omega)
    calc e = e * 1 := (mul_one e).symm
    _ ≤ e * (ps1 / e) := Nat.mul_le_mul_left e h1
    _ = ps1 - ps1 % e := h2.symm
  exact shrinkLoop_spec e pbmax h0 hle _ _ hdvd2 hge2 (by omega)

/-- Helper: the selected Format-7 packet size is a multiple of the
effective `pbmin` lying in `[pbmin, pbmax]`, for an admissible mode. -/
theorem f7PacketSize_spec (bp c : ℚ) (m : F7Mode) (hadm : m.Admissible) :
    m.pbminEff ∣ f7PacketSize bp c m ∧ m.pbminEff ≤ f7PacketSize bp c m ∧
    f7PacketSize bp c m ≤ m.pbmax := by
  obtain ⟨h0, hle⟩ := hadm
  exact packetRound_spec m.pbminEff m.pbmax
    ((m.w * m.h * m.depth + f7NumPackets bp c - 1) / f7NumPackets bp c) h0 hle

/-- Helper: the C idiom `(a + b - 1) / b` is the ceiling of `a / b`. -/
theorem natCeilDiv_eq (a b : ℕ) (hb : 0 < b) :
    ((a + b - 1) / b : ℕ) = ⌈(a : ℚ) / b⌉₊ := by
  rcases Nat.eq_zero_or_pos a with rfl | ha
  · have hz : (b - 1) / b = 0 := Nat.div_eq_of_lt (by omega)
    simp [hz]
  · have hb' : (0 : ℚ) < b := by exact_mod_cast hb
    set q := (a + b - 1) / b with hq
    have h1 : q * b ≤ a + b - 1 := Nat.div_mul_le_self _ _
    have h2 : a + b - 1 < (q + 1) * b := (Nat.div_lt_iff_lt_mul hb).1 (Nat.lt_succ_self q)
    have hq1 : 1 ≤ q := (Nat.le_div_iff_mul_le hb).2 (by omega)
    rw [eq_comm, Nat.ceil_eq_iff (by omega)]
    constructor
    · rw [lt_div_iff₀ hb']
      have hnat : (q - 1) * b < a := by
        have hd : (q - 1) * b = q * b - b := by rw [Nat.sub_mul, one_mul]
        have hbq : b ≤ q * b := by
          calc b = 1 * b := (one_mul b).symm
          _ ≤ q * b := Nat.mul_le_mul_right b hq1
        omega
      calc ((q - 1 : ℕ) : ℚ) * b = (((q - 1) * b : ℕ) : ℚ) := by push_cast; ring
      _ < a := by exact_mod_cast hnat
    · rw [div_le_iff₀ hb']
      have hnat : a ≤ q * b := by
        have hd : (q + 1) * b = q * b + b := by rw [Nat.add_mul, one_mul]
        omega
      calc (a : ℚ) ≤ ((q * b : ℕ) : ℚ) := by exact_mod_cast hnat
      _ = (q : ℚ) * b := by push_cast; ring

/-- Helper: the recomputed packet count of source line 947 is the ceiling
of the payload over eight times the packet size. -/
theorem f7EffNumPackets_eq (m : F7Mode) (ps : ℕ) (hps : 0 < ps) :
    f7EffNumPackets m ps = ⌈(m.w * m.h * m.depth : ℚ) / (8 * ps)⌉₊ := by
  unfold f7EffNumPackets
  rw [natCeilDiv_eq _ _ (by positivity)]
  congr 1
  push_cast
  ring

/-- Helper: the fold's running minimum only decreases and ends below the
distance of every probed mode. -/
theorem f7_foldl_mindiff (bp c : ℚ) :
    ∀ (modes : List F7Mode) (acc : F7Sel),
      (modes.foldl (f7Step bp c) acc).mindiff ≤ acc.mindiff ∧
      ∀ m ∈ modes, (modes.foldl (f7Step bp c) acc).mindiff ≤ |c - f7Framerate bp c m| := by
  intro modes
  induction modes with
  | nil => intro acc; simp
  | cons m rest ih =>
    intro acc
    have hstep : (f7Step bp c acc m).mindiff ≤ acc.mindiff ∧
        (f7Step bp c acc m).mindiff ≤ |c - f7Framerate bp c m| := by
      unfold f7Step
      split
      · rename_i h; exact ⟨le_of_lt h, le_refl _⟩
      · rename_i h; exact ⟨le_refl _, not_lt.1 h⟩
    obtain ⟨ih1, ih2⟩ := ih (f7Step bp c acc m)
    refine ⟨le_trans ih1 hstep.1, ?_⟩
    intro m' hm'
    rcases List.mem_cons.1 hm' with rfl | hrest
    · exact le_trans ih1 hstep.2
    · exact ih2 m' hrest

/-- Helper: the fold either keeps its initial state or returns the exact
record of one of the probed modes. -/
theorem f7_foldl_provenance (bp c : ℚ) :
    ∀ (modes : List F7Mode) (acc : F7Sel),
      modes.foldl (f7Step bp c) acc = acc ∨
      ∃ m ∈ modes, modes.foldl (f7Step bp c) acc =
        ⟨|c - f7Framerate bp c m|,
         some (m, f7PacketSize bp c m, f7Framerate bp c m)⟩ := by
  intro modes
  induction modes with
  | nil => intro acc; left; rfl
  | cons m rest ih =>
    intro acc
    rw [List.foldl_cons]
    rcases ih (f7Step bp c acc m) with heq | ⟨m', hm', heq⟩
    · by_cases hlt : |c - f7Framerate bp c m| < acc.mindiff
      · right
        refine ⟨m, by simp, ?_⟩
        rw [heq]
        unfold f7Step
        rw [if_pos hlt]
      · left
        rw [heq]
        unfold f7Step
        rw [if_neg hlt]
    · right
      exact ⟨m', List.mem_cons_of_mem _ hm', heq⟩

/-- C1: for every list of admissible Format-7 modes (packet bounds
satisfying `0 < pbmin <= pbmax` after the `pbmin == 0 ==> pbmin = pbmax`
substitution), the selector computes
`num_packets = round(1/(bus_period*target)) * 8` clamped to `[8, 32760]`;
whenever it keeps a mode, the kept packet size is that mode's computed one,
an integral multiple of the effective `pbmin` lying in `[pbmin, pbmax]`;
the kept framerate equals
`1 / (bus_period * ceil(w*h*depth / (8*packet_size)))`; and the kept mode
minimizes `|capturerate - framerate|` across all the probed modes. -/
theorem format7_mode_selection (bp c : ℚ) (modes : List F7Mode)
    (hadm : ∀ m ∈ modes, m.Admissible) (m : F7Mode) (ps : ℕ) (fr : ℚ)
    (hsel : (findFormat7Mode bp c modes).best = some (m, ps, fr)) :
    (f7NumPackets bp c = f7NumPacketsSpec bp c ∧
      8 ≤ f7NumPackets bp c ∧ f7NumPackets bp c ≤ 32760) ∧
    m ∈ modes ∧
    ps = f7PacketSize bp c m ∧
    (m.pbminEff ∣ ps ∧ m.pbminEff ≤ ps ∧ ps ≤ m.pbmax) ∧
    fr = 1 / (bp * (⌈(m.w * m.h * m.depth : ℚ) / (8 * ps)⌉₊ : ℚ)) ∧
    ∀ m' ∈ modes, |c - fr| ≤ |c - f7Framerate bp c m'| := by
  rcases f7_foldl_provenance bp c modes ⟨1000000, none⟩ with heq | ⟨m', hm', heq⟩
  · rw [show findFormat7Mode bp c modes = modes.foldl (f7Step bp c) ⟨1000000, none⟩
      from rfl, heq] at hsel
    simp at hsel
  · rw [show findFormat7Mode bp c modes = modes.foldl (f7Step bp c) ⟨1000000, none⟩
      from rfl, heq] at hsel
    simp only [Option.some.injEq, Prod.mk.injEq] at hsel
    obtain ⟨rfl, rfl, rfl⟩ := hsel
    have hadm' := hadm m' hm'
    have hps := f7PacketSize_spec bp c m' hadm'
    refine ⟨f7NumPackets_clamped bp c, hm', rfl, hps, ?_, ?_⟩
    · show f7Framerate bp c m' = _
      unfold f7Framerate
      rw [f7EffNumPackets_eq m' _ (lt_of_lt_of_le hadm'.1 hps.2.1)]
    · intro m'' hm''
      have hmin := (f7_foldl_mindiff bp c modes ⟨1000000, none⟩).2 m'' hm''
      rw [heq] at hmin
      exact hmin

/-- Witness for `format7_mode_selection` on scenario E3's camera: 800x600
ROI at 8 bits per pixel, packet bounds `[4, 8192]`, a 400 Mbit/s bus
(`bus_period = 125e-6 = 1/8000`) and a 60 fps target: the selector keeps
packet size 3608 (a multiple of 4 in `[4, 8192]`) with effective framerate
`8000/134 = 4000/67 ≈ 59.7` fps. -/
theorem format7_mode_selection_witness :
    ((∀ m ∈ [F7Mode.mk 800 600 8 4 8192], m.Admissible) ∧
     (findFormat7Mode (1/8000) 60 [F7Mode.mk 800 600 8 4 8192]).best
       = some (F7Mode.mk 800 600 8 4 8192, 3608, 4000/67)) ∧
    ((F7Mode.mk 800 600 8 4 8192).pbminEff ∣ 3608 ∧
     (F7Mode.mk 800 600 8 4 8192).pbminEff ≤ 3608 ∧
     3608 ≤ (F7Mode.mk 800 600 8 4 8192).pbmax) := by
  have hadm : ∀ m ∈ [F7Mode.mk 800 600 8 4 8192], m.Admissible := by decide
  have h1 : f7NumPackets (1/8000) 60 = 1064 := by
    unfold f7NumPackets
    rw [show (1 : ℚ) / ((1/8000) * 60) + 1/2 = 803/6 by norm_num]
    rw [show ⌊(803/6 : ℚ)⌋ = 133 by norm_num [Int.floor_eq_iff]]
    decide
  have h2 : f7PacketSize (1/8000) 60 (F7Mode.mk 800 600 8 4 8192) = 3608 := by
    unfold f7PacketSize
    rw [h1]
    decide
  have h3 : f7Framerate (1/8000) 60 (F7Mode.mk 800 600 8 4 8192) = 4000/67 := by
    unfold f7Framerate
    rw [h2, show f7EffNumPackets (F7Mode.mk 800 600 8 4 8192) 3608 = 134 by decide]
    norm_num
  have hsel : (findFormat7Mode (1/8000) 60 [F7Mode.mk 800 600 8 4 8192]).best
      = some (F7Mode.mk 800 600 8 4 8192, 3608, 4000/67) := by
    unfold findFormat7Mode
    rw [List.foldl_cons, List.foldl_nil]
    unfold f7Step
    rw [h3, h2, if_pos]
    rw [show (60 : ℚ) - 4000/67 = 20/67 by norm_num, abs_of_pos (by norm_num)]
    norm_num
  exact ⟨⟨hadm, hsel⟩,
    (format7_mode_selection (1/8000) 60 _ hadm _ _ _ hsel).2.2.2.1⟩

end PsychDC
